import Mathlib

/-!
# Verification of the livechat-ws connection broker core

Shallow embedding of the Go sources of `livechat-ws`:
* the Redis-backed presence store (`internal/infrastructure/redis`:
  `AddUserToSession`, `RemoveUserFromSession`, `GetSessionUsers`, `SetUserTyping`),
* the in-process connection registry and broadcast engine
  (`internal/delivery/ws_manager.go`: `addConnection`, `removeConnection`,
  `broadcastToSession`),
* the message dispatch switch (`handleIncomingMessage`, `handleTypingIndicator`,
  `broadcastConnectionStatusWithContext`) and the disconnect path of
  `HandleConnection` (its deferred functions, which Go runs in LIFO order).

Conventions of the embedding:
* Redis hashes and the Go `map`-based registry are modelled as association
  lists; Redis `HSET` keeps the position of an existing field and appends a
  new one, `HDEL` removes the field, `HGETALL` on a missing key yields the
  empty hash (not an error).
* Timestamps are natural numbers; the RFC3339 timestamp strings that the Go
  code embeds in every payload are elided from the payload model (no claim
  refers to them).
* Every externally fallible collaborator call (Redis read/write, Kafka
  publish, `uuid.Parse`) is given an explicit success flag or carried as an
  explicit value, because the Go code branches on those errors.
* All JSON stored in the presence hash is written by `AddUserToSession` and
  hence well-formed, so the `json.Unmarshal`-failure skip in `GetSessionUsers`
  is never taken and is not modelled.
-/

/-- A presence record as stored by `AddUserToSession`
(`internal/infrastructure/redis`): the JSON object
`{user_id, user_type, joined_at}` stored under hash field `userID`. -/
structure PresenceEntry where
  user_id : String
  user_type : String
  joined_at : Nat
deriving DecidableEq, Repr

/-- A Redis hash `session:{sessionID}:users`: fields (user ids) paired with
their presence records, in field-insertion order. -/
abbrev PresenceHash := List (String × PresenceEntry)

/-- Redis `HSET h field v`: overwrites the value of an existing field in
place, otherwise appends the new field at the end. -/
def hset (h : PresenceHash) (field : String) (v : PresenceEntry) : PresenceHash :=
  if h.any (fun p => p.1 = field) then
    h.map (fun p => if p.1 = field then (field, v) else p)
  else
    h ++ [(field, v)]

/-- Redis `HDEL h field`: removes the field if present. -/
def hdel (h : PresenceHash) (field : String) : PresenceHash :=
  h.filter (fun p => p.1 ≠ field)

/-- `RedisClient.AddUserToSession`: `HSET` of the record
`{user_id: userID, user_type: userType, joined_at: now}` under field
`userID`. -/
def AddUserToSession (h : PresenceHash) (userID userType : String) (now : Nat) :
    PresenceHash :=
  hset h userID ⟨userID, userType, now⟩

/-- The `connection_status` structure returned by
`RedisClient.GetSessionUsers`: the users map plus per-role counts and flags. -/
structure SessionStatus where
  users : PresenceHash
  customer_connected : Bool
  agent_connected : Bool
  total_customer : Nat
  total_agent : Nat
deriving DecidableEq, Repr

/-- `RedisClient.GetSessionUsers`: folds over all hash entries, counting
`user_type == "customer"` and (else-if) `user_type == "agent"`, collects every
entry into the users map, and derives the connected flags from the counts. -/
def GetSessionUsers (h : PresenceHash) : SessionStatus :=
  let counts := h.foldl
    (fun (acc : Nat × Nat) p =>
      if p.2.user_type = "customer" then (acc.1 + 1, acc.2)
      else if p.2.user_type = "agent" then (acc.1, acc.2 + 1)
      else acc)
    (0, 0)
  { users := h
    customer_connected := decide (0 < counts.1)
    agent_connected := decide (0 < counts.2)
    total_customer := counts.1
    total_agent := counts.2 }

/-- The ephemeral typing keys `session:{sid}:typing:{uid}`: each live key with
its absolute expiry instant. -/
abbrev TypingStore := List (String × String × Nat)

/-- `RedisClient.SetUserTyping`: `SET key "true" 30*time.Second` when typing
(replacing any previous key), `DEL key` otherwise. -/
def SetUserTyping (ts : TypingStore) (now : Nat) (sessionID userID : String)
    (isTyping : Bool) : TypingStore :=
  let cleared := ts.filter (fun e => ¬(e.1 = sessionID ∧ e.2.1 = userID))
  if isTyping then (sessionID, userID, now + 30) :: cleared else cleared

/-- Whether the typing key for `(sessionID, userID)` exists (is unexpired) at
instant `t`. -/
def typingFlagAt (ts : TypingStore) (t : Nat) (sessionID userID : String) : Bool :=
  ts.any (fun e => e.1 = sessionID ∧ e.2.1 = userID ∧ t < e.2.2)

/-- One live client socket as held by the registry
(`WSConnection` in ws_manager.go; the raw socket pointer and the write mutex
carry no data and are not modelled — write success is an oracle
`writeOk : WSConn → Bool` where needed). -/
structure WSConn where
  UserID : String
  UserType : String
  SessionID : String
deriving DecidableEq, Repr

/-- The `WSManager.connections` map: session id to the list of live
connections, in insertion order. -/
abbrev Registry := List (String × List WSConn)

/-- Go map read `connections[sessionID]` with its `exists` flag. -/
def lookupReg : Registry → String → Option (List WSConn)
  | [], _ => none
  | (k, v) :: rest, sid => if k = sid then some v else lookupReg rest sid

/-- Go map write `connections[sessionID] = l` (updates the existing key in
place, otherwise adds it). -/
def insertReg : Registry → String → List WSConn → Registry
  | [], sid, l => [(sid, l)]
  | (k, v) :: rest, sid, l =>
      if k = sid then (sid, l) :: rest else (k, v) :: insertReg rest sid l

/-- Go `delete(connections, sessionID)`. -/
def eraseReg : Registry → String → Registry
  | [], _ => []
  | (k, v) :: rest, sid => if k = sid then rest else (k, v) :: eraseReg rest sid

/-- `WSManager.addConnection` (ws_manager.go 41-51): appends the connection to
the session's list, creating the key if absent. -/
def addConnection (reg : Registry) (sessionID : String) (conn : WSConn) :
    Registry :=
  insertReg reg sessionID ((lookupReg reg sessionID).getD [] ++ [conn])

/-- The removal loop of `removeConnection` (ws_manager.go 58-66): drops the
first connection whose `UserID` matches, then `break`s. -/
def removeFirst : List WSConn → String → List WSConn
  | [], _ => []
  | c :: rest, userID =>
      if c.UserID = userID then rest else c :: removeFirst rest userID

/-- `WSManager.removeConnection` (ws_manager.go 53-74): if the session key
exists, remove the first matching connection and delete the key when the
remaining list is empty; otherwise do nothing. -/
def removeConnection (reg : Registry) (sessionID userID : String) : Registry :=
  match lookupReg reg sessionID with
  | none => reg
  | some conns =>
      let conns' := removeFirst conns userID
      if conns'.length = 0 then eraseReg reg sessionID
      else insertReg reg sessionID conns'

/-- `WSManager.broadcastToSession` (ws_manager.go 76-118): snapshot the
session's connection list, return early if empty, then deliver to every
connection; a failed write prunes that connection via `removeConnection` and
delivery to the others continues.  The concurrent per-connection goroutines
are serialized here in list order; the result is the updated registry and the
list of connections whose write succeeded. -/
def broadcastToSession (writeOk : WSConn → Bool) (reg : Registry)
    (sessionID : String) : Registry × List WSConn :=
  let connections := (lookupReg reg sessionID).getD []
  if connections.length = 0 then (reg, [])
  else
    connections.foldl
      (fun (acc : Registry × List WSConn) c =>
        if writeOk c then (acc.1, acc.2 ++ [c])
        else (removeConnection acc.1 sessionID c.UserID, acc.2))
      (reg, [])

/-- Payload of an outbound `WebSocketResponse.Data` (one constructor per
payload shape the Go code builds; RFC3339 timestamps elided). -/
inductive RespData
  | typing (session_id user_id sender_type : String) (is_typing : Bool)
  | connStatus (session_id : String) (status : SessionStatus)
      (event_type event_user_id : Option String)
  | sessionInfo (session_id user_id user_type : String)
  | pongData
  | msgSent
  | noData
deriving DecidableEq, Repr

/-- `domain.WebSocketResponse`: `{type, success, data, error}` (the Go zero
values `false` / empty string appear as `false` / `none`). -/
structure WSResponse where
  type : String
  success : Bool
  data : RespData
  error : Option String
deriving DecidableEq, Repr

/-- A JSON value found in an inbound message's `data` object: a boolean or
anything else (the code only type-asserts booleans). -/
inductive DataVal
  | bool (b : Bool)
  | other
deriving DecidableEq, Repr

/-- The inbound `msg.Data` field: Go `nil`, a non-object JSON value, or a
JSON object. -/
inductive MsgData
  | null
  | notMap
  | map (fields : List (String × DataVal))
deriving DecidableEq, Repr

def lookupField : List (String × DataVal) → String → Option DataVal
  | [], _ => none
  | (k, v) :: rest, f => if k = f then some v else lookupField rest f

/-- ws_manager.go 245-254: `isTyping` defaults to `true` and is overridden
only when `msg.Data` is an object whose `"is_typing"` field is a boolean. -/
def typingOverride : MsgData → Bool
  | MsgData.map fields =>
      match lookupField fields "is_typing" with
      | some (DataVal.bool b) => b
      | _ => true
  | _ => true

/-- One observable action of the manager: a frame written to the triggering
connection, a session broadcast, a Redis typing write, a Kafka publish, the
two disconnect-path removals, or the socket close. -/
inductive Step
  | sendToConn (resp : WSResponse)
  | localBroadcast (sessionID : String) (resp : WSResponse)
  | setTyping (sessionID userID : String) (isTyping : Bool)
  | busPublishTyping (sessionID userID userType : String) (isTyping : Bool)
  | busPublishStatus (sessionID : String) (status : SessionStatus)
  | presenceLeave (sessionID userID : String)
  | registryRemove (sessionID userID : String)
  | connClose
deriving DecidableEq, Repr

/-- `WSManager.handleTypingIndicator` (ws_manager.go 280-319): Redis
`SetUserTyping` (failure `setTypingOk = false` is logged and execution
continues), then the local `typing_indicator` broadcast, then — only when
`uuid.Parse(sessionID)` succeeds (`uuidOk`) — the Kafka publish, whose own
failure (`kafkaOk = false`) is logged with no further effect. -/
def handleTypingIndicator (setTypingOk uuidOk kafkaOk : Bool)
    (sessionID userID userType : String) (isTyping : Bool) : List Step :=
  [Step.setTyping sessionID userID isTyping,
   Step.localBroadcast sessionID
     { type := "typing_indicator", success := false,
       data := RespData.typing sessionID userID userType isTyping,
       error := none }] ++
  (if uuidOk then [Step.busPublishTyping sessionID userID userType isTyping]
   else [])

/-- `WSManager.handleIncomingMessage` (ws_manager.go 228-278): the switch on
`msg.Type`. -/
def handleIncomingMessage (setTypingOk uuidOk kafkaOk : Bool) (msgType : String)
    (msgData : MsgData) (sessionID userID userType : String) : List Step :=
  if msgType = "join_session" then
    [Step.sendToConn
      { type := "session_joined", success := true,
        data := RespData.sessionInfo sessionID userID userType,
        error := none }]
  else if msgType = "typing_start" ∨ msgType = "agent_typing" then
    handleTypingIndicator setTypingOk uuidOk kafkaOk sessionID userID userType
      (typingOverride msgData)
  else if msgType = "typing_stop" then
    handleTypingIndicator setTypingOk uuidOk kafkaOk sessionID userID userType
      false
  else if msgType = "send_message" then
    [Step.sendToConn
      { type := "message_sent", success := true,
        data := RespData.msgSent, error := none }]
  else if msgType = "ping" then
    [Step.sendToConn
      { type := "pong", success := true,
        data := RespData.pongData, error := none }]
  else
    [Step.sendToConn
      { type := "error", success := false,
        data := RespData.noData,
        error := some ("Unknown message type: " ++ msgType) }]

/-- One successfully read inbound frame. -/
structure InboundMsg where
  type : String
  data : MsgData
deriving DecidableEq, Repr

/-- The read loop of `HandleConnection` (ws_manager.go 172-181) over the
frames read before the socket fails: every frame is dispatched; no message
content stops the loop. -/
def readLoop (setTypingOk uuidOk kafkaOk : Bool) (msgs : List InboundMsg)
    (sessionID userID userType : String) : List Step :=
  match msgs with
  | [] => []
  | m :: rest =>
      handleIncomingMessage setTypingOk uuidOk kafkaOk m.type m.data sessionID
        userID userType ++
      readLoop setTypingOk uuidOk kafkaOk rest sessionID userID userType

/-- The Redis presence collections, keyed by session id. -/
abbrev PresenceStore := List (String × PresenceHash)

/-- Redis `HGETALL session:{sid}:users`: the empty hash when the key is
absent. -/
def presenceLookup : PresenceStore → String → PresenceHash
  | [], _ => []
  | (k, v) :: rest, sid => if k = sid then v else presenceLookup rest sid

def presenceUpdate : PresenceStore → String → PresenceHash → PresenceStore
  | [], sid, h => [(sid, h)]
  | (k, v) :: rest, sid, h =>
      if k = sid then (sid, h) :: rest else (k, v) :: presenceUpdate rest sid h

/-- `RedisClient.RemoveUserFromSession`: `HDEL session:{sid}:users userID`. -/
def RemoveUserFromSession (ps : PresenceStore) (sessionID userID : String) :
    PresenceStore :=
  presenceUpdate ps sessionID (hdel (presenceLookup ps sessionID) userID)

/-- The state a broker instance mutates: its registry and (its view of) the
distributed presence store. -/
structure ServerState where
  registry : Registry
  presence : PresenceStore
deriving DecidableEq, Repr

/-- `WSManager.broadcastConnectionStatusWithContext` (ws_manager.go 341-391):
read the session status from Redis — on read failure (`redisOk = false`) log
and return with no broadcast at all; otherwise broadcast the
`connection_status_update` locally (pruning dead connections), then, when the
session id parses (`uuidOk`), publish the status to Kafka (`kafkaOk = false`
is logged with no further effect). -/
def broadcastConnectionStatusWithContext (writeOk : WSConn → Bool)
    (redisOk uuidOk kafkaOk : Bool) (st : ServerState)
    (sessionID eventType eventUserID : String) : ServerState × List Step :=
  if redisOk then
    let status := GetSessionUsers (presenceLookup st.presence sessionID)
    let resp : WSResponse :=
      { type := "connection_status_update", success := false,
        data := RespData.connStatus sessionID status
          (if eventType = "" then none else some eventType)
          (if eventUserID = "" then none else some eventUserID),
        error := none }
    ({ registry := (broadcastToSession writeOk st.registry sessionID).1,
       presence := st.presence },
     [Step.localBroadcast sessionID resp] ++
     (if uuidOk then [Step.busPublishStatus sessionID status] else []))
  else (st, [])

/-- The deferred functions of `HandleConnection`, in REGISTRATION order:
line 121 `c.Close()`; lines 142-151 `removeConnection` followed by
`broadcastConnectionStatusWithContext(sessionID, "user_disconnected",
userID)`; lines 157-161 Redis `RemoveUserFromSession` (failure
`presenceRemoveOk = false` is logged and leaves the store unchanged). -/
def handleConnectionDefers (writeOk : WSConn → Bool)
    (presenceRemoveOk redisOk uuidOk kafkaOk : Bool)
    (sessionID userID : String) :
    List (ServerState → ServerState × List Step) :=
  [fun st => (st, [Step.connClose]),
   fun st =>
     let st1 : ServerState :=
       { registry := removeConnection st.registry sessionID userID,
         presence := st.presence }
     let r := broadcastConnectionStatusWithContext writeOk redisOk uuidOk
       kafkaOk st1 sessionID "user_disconnected" userID
     (r.1, Step.registryRemove sessionID userID :: r.2),
   fun st =>
     (if presenceRemoveOk then
        { registry := st.registry,
          presence := RemoveUserFromSession st.presence sessionID userID }
      else st,
      [Step.presenceLeave sessionID userID])]

/-- Go runs deferred functions in LIFO order when the surrounding function
returns. -/
def runDefers (ds : List (ServerState → ServerState × List Step))
    (st : ServerState) : ServerState × List Step :=
  ds.reverse.foldl (fun acc d => let r := d acc.1; (r.1, acc.2 ++ r.2))
    (st, [])

/-- The `Active → Closing → Closed` exit path of `HandleConnection`: the LIFO
execution of its registered defers once the read loop stops. -/
def handleConnectionDisconnect (writeOk : WSConn → Bool)
    (presenceRemoveOk redisOk uuidOk kafkaOk : Bool) (st : ServerState)
    (sessionID userID : String) : ServerState × List Step :=
  runDefers
    (handleConnectionDefers writeOk presenceRemoveOk redisOk uuidOk kafkaOk
      sessionID userID) st

/-- Recognizes the `connection_status_update` local broadcast steps. -/
def isConnStatusBroadcast : Step → Bool
  | Step.localBroadcast _ r => r.type = "connection_status_update"
  | _ => false

namespace PresenceLemmas

theorem foldl_counts (h : PresenceHash) (a b : Nat) :
    h.foldl
      (fun (acc : Nat × Nat) p =>
        if p.2.user_type = "customer" then (acc.1 + 1, acc.2)
        else if p.2.user_type = "agent" then (acc.1, acc.2 + 1)
        else acc)
      (a, b) =
    (a + (h.filter (fun p => p.2.user_type = "customer")).length,
     b + (h.filter (fun p => p.2.user_type = "agent")).length) := by
  induction h generalizing a b with
  | nil => simp
  | cons p t ih =>
    by_cases hc : p.2.user_type = "customer"
    · have ha : ¬ p.2.user_type = "agent" := by
        rw [hc]; intro hcontra; exact absurd hcontra (by decide)
      simp [hc, ha, ih, Nat.add_assoc, Nat.add_comm 1]
    · by_cases ha : p.2.user_type = "agent"
      · simp [hc, ha, ih, Nat.add_assoc, Nat.add_comm 1]
      · simp [hc, ha, ih]

theorem total_customer_eq (h : PresenceHash) :
    (GetSessionUsers h).total_customer =
      (h.filter (fun p => p.2.user_type = "customer")).length := by
  show (h.foldl _ ((0 : Nat), (0 : Nat))).1 = _
  rw [foldl_counts h 0 0]; simp

theorem total_agent_eq (h : PresenceHash) :
    (GetSessionUsers h).total_agent =
      (h.filter (fun p => p.2.user_type = "agent")).length := by
  show (h.foldl _ ((0 : Nat), (0 : Nat))).2 = _
  rw [foldl_counts h 0 0]; simp

theorem users_eq (h : PresenceHash) : (GetSessionUsers h).users = h := rfl

theorem customer_connected_iff (h : PresenceHash) :
    (GetSessionUsers h).customer_connected = true ↔
      0 < (GetSessionUsers h).total_customer := by
  simp [GetSessionUsers]

theorem agent_connected_iff (h : PresenceHash) :
    (GetSessionUsers h).agent_connected = true ↔
      0 < (GetSessionUsers h).total_agent := by
  simp [GetSessionUsers]

end PresenceLemmas

/-- C7: `GetSessionUsers` (the presence `Snapshot`) reads every entry into the
users map, counts entries by role, derives the connected flags from positive
counts, and yields the zeroed status on an empty session. -/
theorem snapshot_folds_presence (h : PresenceHash) :
    (GetSessionUsers h).users = h ∧
    (GetSessionUsers h).total_customer =
      (h.filter (fun p => p.2.user_type = "customer")).length ∧
    (GetSessionUsers h).total_agent =
      (h.filter (fun p => p.2.user_type = "agent")).length ∧
    ((GetSessionUsers h).customer_connected = true ↔
      0 < (GetSessionUsers h).total_customer) ∧
    ((GetSessionUsers h).agent_connected = true ↔
      0 < (GetSessionUsers h).total_agent) ∧
    GetSessionUsers [] =
      { users := [], customer_connected := false, agent_connected := false,
        total_customer := 0, total_agent := 0 } :=
  ⟨PresenceLemmas.users_eq h, PresenceLemmas.total_customer_eq h,
   PresenceLemmas.total_agent_eq h, PresenceLemmas.customer_connected_iff h,
   PresenceLemmas.agent_connected_iff h, rfl⟩

namespace JoinLemmas

/-- Replacing a field that no entry carries leaves the hash unchanged. -/
theorem map_replace_fix (h : PresenceHash) (field : String) (v : PresenceEntry)
    (hnot : ∀ p ∈ h, p.1 ≠ field) :
    h.map (fun p => if p.1 = field then (field, v) else p) = h := by
  induction h with
  | nil => rfl
  | cons q t ih =>
    have hq : q.1 ≠ field := hnot q (by simp)
    simp only [List.map_cons, if_neg hq, List.cons.injEq, true_and]
    exact ih (fun p hp => hnot p (by simp [hp]))

/-- In-place replacement preserves the field list. -/
theorem keys_map_replace (h : PresenceHash) (field : String) (v : PresenceEntry) :
    (h.map (fun p => if p.1 = field then (field, v) else p)).map Prod.fst =
      h.map Prod.fst := by
  induction h with
  | nil => rfl
  | cons q t ih =>
    by_cases hq : q.1 = field <;> simp [hq, ih]

/-- Replacing the same field twice keeps only the last value. -/
theorem map_replace_replace (h : PresenceHash) (field : String)
    (v1 v2 : PresenceEntry) :
    (h.map (fun p => if p.1 = field then (field, v1) else p)).map
      (fun p => if p.1 = field then (field, v2) else p) =
    h.map (fun p => if p.1 = field then (field, v2) else p) := by
  induction h with
  | nil => rfl
  | cons q t ih =>
    by_cases hq : q.1 = field <;> simp [hq, ih]

theorem filter_key_nil (h : PresenceHash) (field : String)
    (hnot : ∀ p ∈ h, p.1 ≠ field) :
    h.filter (fun p => p.1 = field) = [] := by
  induction h with
  | nil => rfl
  | cons q t ih =>
    simp only [List.filter_cons, decide_eq_true_eq, if_neg (hnot q (by simp))]
    exact ih (fun p hp => hnot p (by simp [hp]))

theorem hset_of_mem (h : PresenceHash) (field : String) (v : PresenceEntry)
    (hc : ∃ p ∈ h, p.1 = field) :
    hset h field v = h.map (fun p => if p.1 = field then (field, v) else p) := by
  have : h.any (fun p => p.1 = field) = true := by
    simp only [List.any_eq_true, decide_eq_true_eq]; exact hc
  simp [hset, this]

theorem hset_of_not_mem (h : PresenceHash) (field : String) (v : PresenceEntry)
    (hc : ¬ ∃ p ∈ h, p.1 = field) :
    hset h field v = h ++ [(field, v)] := by
  have : h.any (fun p => p.1 = field) = false := by
    simp only [List.any_eq_false, decide_eq_true_eq]
    exact fun p hp he => hc ⟨p, hp, he⟩
  simp [hset, this]

theorem filter_map_replace_one (h : PresenceHash) (field : String)
    (v : PresenceEntry) (hnodup : (h.map Prod.fst).Nodup)
    (hmem : ∃ p ∈ h, p.1 = field) :
    ((h.map (fun p => if p.1 = field then (field, v) else p)).filter
      (fun p => p.1 = field)).length = 1 := by
  induction h with
  | nil => simp at hmem
  | cons q t ih =>
    simp only [List.map_cons, List.nodup_cons] at hnodup
    by_cases hq : q.1 = field
    · have hnt : ∀ p ∈ t, p.1 ≠ field := by
        intro p hp he
        exact hnodup.1 (by rw [hq, ← he]; exact List.mem_map_of_mem Prod.fst hp)
      rw [List.map_cons, if_pos hq, map_replace_fix t field v hnt]
      simp [List.filter_cons, filter_key_nil t field hnt]
    · have hmem' : ∃ p ∈ t, p.1 = field := by
        rcases hmem with ⟨p, hp, he⟩
        rcases List.mem_cons.mp hp with hpq | hpt
        · exact absurd (hpq ▸ he) hq
        · exact ⟨p, hpt, he⟩
      simp only [List.map_cons, if_neg hq, List.filter_cons, decide_eq_true_eq,
        if_neg hq]
      exact ih hnodup.2 hmem'

end JoinLemmas

/-- C8: joining a user is an upsert: a second `AddUserToSession` for the same
user overwrites the first (no duplicate entry), the hash keeps exactly one
entry for that user and keeps its fields duplicate-free, so a following
`GetSessionUsers` snapshot counts the user exactly once. -/
theorem join_is_upsert (h : PresenceHash) (uid u1 u2 : String) (t1 t2 : Nat)
    (hnodup : (h.map Prod.fst).Nodup) :
    AddUserToSession (AddUserToSession h uid u1 t1) uid u2 t2 =
      AddUserToSession h uid u2 t2 ∧
    ((AddUserToSession h uid u1 t1).filter (fun p => p.1 = uid)).length = 1 ∧
    ((AddUserToSession h uid u1 t1).map Prod.fst).Nodup ∧
    ((GetSessionUsers (AddUserToSession h uid u1 t1)).users.filter
      (fun p => p.1 = uid)).length = 1 := by
  by_cases hc : ∃ p ∈ h, p.1 = uid
  · have h1 := JoinLemmas.hset_of_mem h uid ⟨uid, u1, t1⟩ hc
    have hkeys := JoinLemmas.keys_map_replace h uid (⟨uid, u1, t1⟩ : PresenceEntry)
    have hc1 : ∃ p ∈ AddUserToSession h uid u1 t1, p.1 = uid := by
      rcases hc with ⟨p, hp, he⟩
      exact ⟨(uid, ⟨uid, u1, t1⟩), by
        rw [AddUserToSession, h1]
        exact List.mem_map.mpr ⟨p, hp, by simp [he]⟩, rfl⟩
    have h2 := JoinLemmas.hset_of_mem (AddUserToSession h uid u1 t1) uid
      ⟨uid, u2, t2⟩ hc1
    constructor
    · show hset (AddUserToSession h uid u1 t1) uid ⟨uid, u2, t2⟩ = _
      rw [h2, AddUserToSession, h1, JoinLemmas.map_replace_replace,
        AddUserToSession, JoinLemmas.hset_of_mem h uid ⟨uid, u2, t2⟩ hc]
    · have hone : ((AddUserToSession h uid u1 t1).filter
          (fun p => p.1 = uid)).length = 1 := by
        rw [AddUserToSession, h1]
        exact JoinLemmas.filter_map_replace_one h uid ⟨uid, u1, t1⟩ hnodup hc
      refine ⟨hone, ?_, ?_⟩
      · rw [AddUserToSession, h1, hkeys]; exact hnodup
      · rw [PresenceLemmas.users_eq]; exact hone
  · have h1 := JoinLemmas.hset_of_not_mem h uid ⟨uid, u1, t1⟩ hc
    have hnot : ∀ p ∈ h, p.1 ≠ uid := fun p hp he => hc ⟨p, hp, he⟩
    have hc1 : ∃ p ∈ AddUserToSession h uid u1 t1, p.1 = uid :=
      ⟨(uid, ⟨uid, u1, t1⟩), by rw [AddUserToSession, h1]; simp, rfl⟩
    have h2 := JoinLemmas.hset_of_mem (AddUserToSession h uid u1 t1) uid
      ⟨uid, u2, t2⟩ hc1
    constructor
    · show hset (AddUserToSession h uid u1 t1) uid ⟨uid, u2, t2⟩ = _
      rw [h2, AddUserToSession, h1, List.map_append,
        JoinLemmas.map_replace_fix h uid ⟨uid, u2, t2⟩ hnot,
        AddUserToSession, JoinLemmas.hset_of_not_mem h uid ⟨uid, u2, t2⟩ hc]
      simp
    · have hone : ((AddUserToSession h uid u1 t1).filter
          (fun p => p.1 = uid)).length = 1 := by
        rw [AddUserToSession, h1, List.filter_append,
          JoinLemmas.filter_key_nil h uid hnot]
        simp
      refine ⟨hone, ?_, ?_⟩
      · rw [AddUserToSession, h1, List.map_append]
        simp only [List.map_cons, List.map_nil]
        rw [List.nodup_append]
        exact ⟨hnodup, List.nodup_singleton uid,
          by intro a ha hb; simp at hb; subst hb
             rcases List.mem_map.mp ha with ⟨p, hp, he⟩
             exact hnot p hp he⟩
      · rw [PresenceLemmas.users_eq]; exact hone

/-- C8 witness: concrete instantiation of `join_is_upsert`. -/
theorem join_is_upsert_witness :
    AddUserToSession (AddUserToSession
        [("u0", ⟨"u0", "agent", 5⟩)] "u1" "customer" 1) "u1" "customer" 2 =
      AddUserToSession [("u0", ⟨"u0", "agent", 5⟩)] "u1" "customer" 2 ∧
    ((AddUserToSession [("u0", ⟨"u0", "agent", 5⟩)] "u1" "customer" 1).filter
      (fun p => p.1 = "u1")).length = 1 ∧
    ((AddUserToSession [("u0", ⟨"u0", "agent", 5⟩)] "u1" "customer" 1).map
      Prod.fst).Nodup ∧
    ((GetSessionUsers (AddUserToSession
        [("u0", ⟨"u0", "agent", 5⟩)] "u1" "customer" 1)).users.filter
      (fun p => p.1 = "u1")).length = 1 :=
  join_is_upsert [("u0", ⟨"u0", "agent", 5⟩)] "u1" "customer" "customer" 1 2
    (by decide)

namespace RoleLemmas

/-- Removing one entry the filter rejects does not change the filter length. -/
theorem filter_length_erase (l : PresenceHash) (x : String × PresenceEntry)
    (p : String × PresenceEntry → Bool) (hmem : x ∈ l) (hpx : p x = false) :
    ((l.erase x).filter p).length = (l.filter p).length := by
  induction l with
  | nil => cases hmem
  | cons a t ih =>
    by_cases hax : a = x
    · subst hax
      rw [List.erase_cons_head]
      simp [List.filter_cons, hpx]
    · rw [List.erase_cons_tail (by simp [hax])]
      have hmem' : x ∈ t := by
        rcases List.mem_cons.mp hmem with he | ht
        · exact absurd he.symm hax
        · exact ht
      by_cases hpa : p a
      · simp [List.filter_cons, hpa, ih hmem']
      · simp only [Bool.not_eq_true] at hpa
        simp [List.filter_cons, hpa, ih hmem']

end RoleLemmas

/-- C10: a presence entry whose role is neither `"customer"` nor `"agent"`
still appears in the users map of `GetSessionUsers`, but removing it changes
neither `total_customer` nor `total_agent` (it is counted by neither), and a
session holding only an `"admin"` user has a non-empty users map while both
connected flags are `false`. -/
theorem nonstandard_role_uncounted (h : PresenceHash)
    (x : String × PresenceEntry) (hmem : x ∈ h)
    (hc : x.2.user_type ≠ "customer") (ha : x.2.user_type ≠ "agent") :
    x ∈ (GetSessionUsers h).users ∧
    (GetSessionUsers (h.erase x)).total_customer =
      (GetSessionUsers h).total_customer ∧
    (GetSessionUsers (h.erase x)).total_agent =
      (GetSessionUsers h).total_agent ∧
    (GetSessionUsers [("admin1", ⟨"admin1", "admin", 0⟩)]).users ≠ [] ∧
    (GetSessionUsers [("admin1", ⟨"admin1", "admin", 0⟩)]).customer_connected
      = false ∧
    (GetSessionUsers [("admin1", ⟨"admin1", "admin", 0⟩)]).agent_connected
      = false := by
  refine ⟨by rw [PresenceLemmas.users_eq]; exact hmem, ?_, ?_, by decide,
    by decide, by decide⟩
  · rw [PresenceLemmas.total_customer_eq, PresenceLemmas.total_customer_eq]
    exact RoleLemmas.filter_length_erase h x _ hmem (by simp [hc])
  · rw [PresenceLemmas.total_agent_eq, PresenceLemmas.total_agent_eq]
    exact RoleLemmas.filter_length_erase h x _ hmem (by simp [ha])

/-- C10 witness: concrete instantiation of `nonstandard_role_uncounted` on a
session containing one `"admin"` user and one `"customer"` user. -/
theorem nonstandard_role_uncounted_witness :
    ("adm", (⟨"adm", "admin", 3⟩ : PresenceEntry)) ∈
      (GetSessionUsers [("adm", ⟨"adm", "admin", 3⟩),
        ("c1", ⟨"c1", "customer", 4⟩)]).users ∧
    (GetSessionUsers ([("adm", ⟨"adm", "admin", 3⟩),
        ("c1", ⟨"c1", "customer", 4⟩)].erase
        ("adm", ⟨"adm", "admin", 3⟩))).total_customer =
      (GetSessionUsers [("adm", ⟨"adm", "admin", 3⟩),
        ("c1", ⟨"c1", "customer", 4⟩)]).total_customer ∧
    (GetSessionUsers ([("adm", ⟨"adm", "admin", 3⟩),
        ("c1", ⟨"c1", "customer", 4⟩)].erase
        ("adm", ⟨"adm", "admin", 3⟩))).total_agent =
      (GetSessionUsers [("adm", ⟨"adm", "admin", 3⟩),
        ("c1", ⟨"c1", "customer", 4⟩)]).total_agent ∧
    (GetSessionUsers [("admin1", ⟨"admin1", "admin", 0⟩)]).users ≠ [] ∧
    (GetSessionUsers [("admin1", ⟨"admin1", "admin", 0⟩)]).customer_connected
      = false ∧
    (GetSessionUsers [("admin1", ⟨"admin1", "admin", 0⟩)]).agent_connected
      = false :=
  nonstandard_role_uncounted
    [("adm", ⟨"adm", "admin", 3⟩), ("c1", ⟨"c1", "customer", 4⟩)]
    ("adm", ⟨"adm", "admin", 3⟩) (by decide) (by decide) (by decide)

namespace RegistryLemmas

theorem lookup_insert (reg : Registry) (sid : String) (l : List WSConn) :
    lookupReg (insertReg reg sid l) sid = some l := by
  induction reg with
  | nil => simp [insertReg, lookupReg]
  | cons p rest ih =>
    obtain ⟨k, v⟩ := p
    by_cases hk : k = sid <;> simp [insertReg, lookupReg, hk, ih]

theorem lookup_insert_ne (reg : Registry) (sid s : String) (l : List WSConn)
    (hs : s ≠ sid) :
    lookupReg (insertReg reg sid l) s = lookupReg reg s := by
  have hs' : ¬(sid = s) := fun h => hs h.symm
  induction reg with
  | nil => simp [insertReg, lookupReg, hs']
  | cons p rest ih =>
    obtain ⟨k, v⟩ := p
    by_cases hk : k = sid
    · subst hk; simp [insertReg, lookupReg, hs']
    · simp [insertReg, lookupReg, hk, ih]

theorem insert_self (reg : Registry) (sid : String) (conns : List WSConn)
    (h : lookupReg reg sid = some conns) : insertReg reg sid conns = reg := by
  induction reg with
  | nil => simp [lookupReg] at h
  | cons p rest ih =>
    obtain ⟨k, v⟩ := p
    by_cases hk : k = sid
    · subst hk
      have hv : v = conns := by simpa [lookupReg] using h
      simp [insertReg, hv]
    · simp only [lookupReg, if_neg hk] at h
      simp [insertReg, hk, ih h]

theorem lookup_eq_none_of_not_mem (reg : Registry) (sid : String)
    (h : sid ∉ reg.map Prod.fst) : lookupReg reg sid = none := by
  induction reg with
  | nil => rfl
  | cons p rest ih =>
    obtain ⟨k, v⟩ := p
    simp only [List.map_cons, List.mem_cons] at h
    push_neg at h
    have : ¬(k = sid) := fun he => h.1 he.symm
    simp [lookupReg, this, ih h.2]

theorem lookup_erase_self (reg : Registry) (sid : String)
    (hnodup : (reg.map Prod.fst).Nodup) :
    lookupReg (eraseReg reg sid) sid = none := by
  induction reg with
  | nil => rfl
  | cons p rest ih =>
    obtain ⟨k, v⟩ := p
    simp only [List.map_cons, List.nodup_cons] at hnodup
    by_cases hk : k = sid
    · subst hk
      simp only [eraseReg, if_pos rfl]
      exact lookup_eq_none_of_not_mem rest k hnodup.1
    · simp [eraseReg, lookupReg, hk, ih hnodup.2]

theorem lookup_erase_ne (reg : Registry) (sid s : String) (hs : s ≠ sid) :
    lookupReg (eraseReg reg sid) s = lookupReg reg s := by
  induction reg with
  | nil => rfl
  | cons p rest ih =>
    obtain ⟨k, v⟩ := p
    by_cases hk : k = sid
    · subst hk
      have : ¬(k = s) := fun he => hs (he.symm)
      simp [eraseReg, lookupReg, this]
    · simp [eraseReg, lookupReg, hk, ih]

theorem lookup_mem (reg : Registry) (sid : String) (conns : List WSConn)
    (h : lookupReg reg sid = some conns) : (sid, conns) ∈ reg := by
  induction reg with
  | nil => simp [lookupReg] at h
  | cons p rest ih =>
    obtain ⟨k, v⟩ := p
    by_cases hk : k = sid
    · subst hk
      have hv : v = conns := by simpa [lookupReg] using h
      subst hv; exact List.mem_cons_self _ _
    · simp only [lookupReg, if_neg hk] at h
      exact List.mem_cons_of_mem _ (ih h)

theorem removeFirst_of_no_match (conns : List WSConn) (uid : String)
    (h : ∀ c ∈ conns, c.UserID ≠ uid) : removeFirst conns uid = conns := by
  induction conns with
  | nil => rfl
  | cons c rest ih =>
    simp only [removeFirst, if_neg (h c (by simp))]
    rw [ih (fun x hx => h x (by simp [hx]))]

theorem removeFirst_split (pre post : List WSConn) (c : WSConn) (uid : String)
    (hpre : ∀ x ∈ pre, x.UserID ≠ uid) (hc : c.UserID = uid) :
    removeFirst (pre ++ c :: post) uid = pre ++ post := by
  induction pre with
  | nil => simp [removeFirst, hc]
  | cons x rest ih =>
    simp only [List.cons_append, removeFirst, if_neg (hpre x (by simp)),
      List.append_eq]
    rw [ih (fun y hy => hpre y (by simp [hy]))]

theorem broadcast_foldl (writeOk : WSConn → Bool) (sid : String)
    (conns : List WSConn) (acc : Registry × List WSConn) :
    conns.foldl
      (fun (acc : Registry × List WSConn) c =>
        if writeOk c then (acc.1, acc.2 ++ [c])
        else (removeConnection acc.1 sid c.UserID, acc.2)) acc =
    ((conns.filter (fun c => !writeOk c)).foldl
       (fun r c => removeConnection r sid c.UserID) acc.1,
     acc.2 ++ conns.filter writeOk) := by
  induction conns generalizing acc with
  | nil => simp
  | cons c t ih =>
    by_cases hw : writeOk c <;>
      simp [hw, ih, List.filter_cons]

end RegistryLemmas

/-- C6: `removeConnection` removes exactly the first connection whose user id
matches, deletes the session key when the resulting list is empty, leaves
other sessions untouched, and is a no-op — not an error — when the session
key or a matching connection is absent.  The hypotheses are the registry
well-formedness that `addConnection`/`removeConnection` maintain: unique
session keys and no empty connection list stored under a key. -/
theorem remove_connection_spec (reg : Registry) (sid uid : String)
    (hkeys : (reg.map Prod.fst).Nodup) (hne : ∀ p ∈ reg, p.2 ≠ []) :
    (lookupReg reg sid = none → removeConnection reg sid uid = reg) ∧
    (∀ conns, lookupReg reg sid = some conns →
      ((∀ c ∈ conns, c.UserID ≠ uid) → removeConnection reg sid uid = reg) ∧
      (∀ pre c post, conns = pre ++ c :: post →
        (∀ x ∈ pre, x.UserID ≠ uid) → c.UserID = uid →
        (pre ++ post = [] →
          lookupReg (removeConnection reg sid uid) sid = none) ∧
        (pre ++ post ≠ [] →
          lookupReg (removeConnection reg sid uid) sid = some (pre ++ post)) ∧
        (∀ s, s ≠ sid →
          lookupReg (removeConnection reg sid uid) s = lookupReg reg s))) := by
  constructor
  · intro h
    simp [removeConnection, h]
  · intro conns hl
    constructor
    · intro hno
      have hr : removeFirst conns uid = conns :=
        RegistryLemmas.removeFirst_of_no_match conns uid hno
      have hcne : conns ≠ [] := hne (sid, conns)
        (RegistryLemmas.lookup_mem reg sid conns hl)
      have hlen : ¬(conns.length = 0) := by
        simpa [List.length_eq_zero] using hcne
      simp only [removeConnection, hl, hr, if_neg hlen]
      exact RegistryLemmas.insert_self reg sid conns hl
    · intro pre c post hsplit hpre hc
      have hr : removeFirst conns uid = pre ++ post := by
        rw [hsplit]
        exact RegistryLemmas.removeFirst_split pre post c uid hpre hc
      by_cases hempty : pre ++ post = []
      · have hlen : (pre ++ post).length = 0 := by simp [hempty]
        refine ⟨fun _ => ?_, fun h2 => absurd hempty h2, fun s hs => ?_⟩
        · simp only [removeConnection, hl, hr, if_pos hlen]
          exact RegistryLemmas.lookup_erase_self reg sid hkeys
        · simp only [removeConnection, hl, hr, if_pos hlen]
          exact RegistryLemmas.lookup_erase_ne reg sid s hs
      · have hlen : ¬((pre ++ post).length = 0) := by
          simpa [List.length_eq_zero] using hempty
        refine ⟨fun h2 => absurd h2 hempty, fun _ => ?_, fun s hs => ?_⟩
        · simp only [removeConnection, hl, hr, if_neg hlen]
          exact RegistryLemmas.lookup_insert reg sid (pre ++ post)
        · simp only [removeConnection, hl, hr, if_neg hlen]
          exact RegistryLemmas.lookup_insert_ne reg sid s (pre ++ post) hs

/-- C6 witness: on the registry `{"S" ↦ [alice, bob]}`, removing an absent
user is a no-op and removing `"alice"` leaves `{"S" ↦ [bob]}`; removing the
last user of `{"T" ↦ [carol]}` deletes the key. -/
theorem remove_connection_spec_witness :
    removeConnection [("S", [⟨"alice", "customer", "S"⟩,
        ⟨"bob", "agent", "S"⟩])] "S" "x" =
      [("S", [⟨"alice", "customer", "S"⟩, ⟨"bob", "agent", "S"⟩])] ∧
    lookupReg (removeConnection [("S", [⟨"alice", "customer", "S"⟩,
        ⟨"bob", "agent", "S"⟩])] "S" "alice") "S" =
      some [⟨"bob", "agent", "S"⟩] ∧
    lookupReg (removeConnection [("T", [⟨"carol", "agent", "T"⟩])]
        "T" "carol") "T" = none := by
  refine ⟨?_, ?_, ?_⟩
  · exact ((remove_connection_spec
      [("S", [⟨"alice", "customer", "S"⟩, ⟨"bob", "agent", "S"⟩])] "S" "x"
      (by decide) (by decide)).2
      [⟨"alice", "customer", "S"⟩, ⟨"bob", "agent", "S"⟩] (by decide)).1
      (by decide)
  · exact ((((remove_connection_spec
      [("S", [⟨"alice", "customer", "S"⟩, ⟨"bob", "agent", "S"⟩])] "S" "alice"
      (by decide) (by decide)).2
      [⟨"alice", "customer", "S"⟩, ⟨"bob", "agent", "S"⟩] (by decide)).2
      [] ⟨"alice", "customer", "S"⟩ [⟨"bob", "agent", "S"⟩] rfl
      (by decide) (by decide)).2.1 (by decide))
  · exact ((((remove_connection_spec
      [("T", [⟨"carol", "agent", "T"⟩])] "T" "carol"
      (by decide) (by decide)).2
      [⟨"carol", "agent", "T"⟩] (by decide)).2
      [] ⟨"carol", "agent", "T"⟩ [] rfl (by decide) (by decide)).1 (by decide))

/-- C3 counterexample: pruning on a failed write goes by USER ID, not by
connection.  In the session `[aliceAgentTab (healthy), aliceCustomerTab
(failing), bob (healthy)]` — the spec allows several connections per user —
the failing write triggers `removeConnection("S", "alice")`, which removes
the FIRST registry entry with user id `"alice"`: the healthy tab.  Delivery
to `bob` still happens, but the failing connection itself stays registered,
refuting "the failing connection A is removed from the Registry". -/
theorem broadcast_prune_by_userid_cex :
    (⟨"bob", "agent", "S"⟩ : WSConn) ∈
      (broadcastToSession (fun c => c.UserType == "agent")
        [("S", [⟨"alice", "agent", "S"⟩, ⟨"alice", "customer", "S"⟩,
                ⟨"bob", "agent", "S"⟩])] "S").2 ∧
    (⟨"alice", "customer", "S"⟩ : WSConn) ∈
      (lookupReg ((broadcastToSession (fun c => c.UserType == "agent")
        [("S", [⟨"alice", "agent", "S"⟩, ⟨"alice", "customer", "S"⟩,
                ⟨"bob", "agent", "S"⟩])] "S").1) "S").getD [] ∧
    (⟨"alice", "agent", "S"⟩ : WSConn) ∉
      (lookupReg ((broadcastToSession (fun c => c.UserType == "agent")
        [("S", [⟨"alice", "agent", "S"⟩, ⟨"alice", "customer", "S"⟩,
                ⟨"bob", "agent", "S"⟩])] "S").1) "S").getD [] := by
  exact ⟨by decide, by decide, by decide⟩

/-- C3 (amended): for every session list containing a connection `B` whose
write succeeds, the broadcast still delivers to `B` whatever other writes
fail (one connection's failure never aborts delivery to the others — the
delivered set is exactly the write-successful snapshot); each failing
connection's only registry effect is `removeConnection` with ITS USER ID,
which prunes the first registry entry bearing that id — the failing
connection itself when no earlier-listed connection shares its user id, in
particular in a session `[A, B]` with distinct user ids, where the dead `A`
is pruned by the broadcast as the claim states. -/
theorem broadcast_isolation_general (reg : Registry) (sid : String)
    (writeOk : WSConn → Bool) (conns : List WSConn)
    (hlook : lookupReg reg sid = some conns) (B : WSConn)
    (hBmem : B ∈ conns) (hB : writeOk B = true) :
    B ∈ (broadcastToSession writeOk reg sid).2 ∧
    (broadcastToSession writeOk reg sid).2 = conns.filter writeOk ∧
    (broadcastToSession writeOk reg sid).1 =
      (conns.filter (fun c => !writeOk c)).foldl
        (fun r c => removeConnection r sid c.UserID) reg ∧
    (∀ A, conns = [A, B] → writeOk A = false → A.UserID ≠ B.UserID →
      A ∉ (lookupReg ((broadcastToSession writeOk reg sid).1) sid).getD
        []) := by
  have hcne : conns ≠ [] := List.ne_nil_of_mem hBmem
  have hne : ¬(conns.length = 0) := by
    simpa [List.length_eq_zero] using hcne
  have hbr : broadcastToSession writeOk reg sid =
      ((conns.filter (fun c => !writeOk c)).foldl
         (fun r c => removeConnection r sid c.UserID) reg,
       conns.filter writeOk) := by
    simp only [broadcastToSession, hlook, Option.getD_some, if_neg hne]
    rw [RegistryLemmas.broadcast_foldl]
    simp
  refine ⟨?_, by rw [hbr], by rw [hbr], ?_⟩
  · rw [hbr]
    exact List.mem_filter.mpr ⟨hBmem, hB⟩
  · intro A hconns hA hAB
    subst hconns
    have hfilter : ([A, B].filter (fun c => !writeOk c)) = [A] := by
      simp [List.filter_cons, hA, hB]
    have hfirst : removeFirst [A, B] A.UserID = [B] := by
      simp [removeFirst]
    have hrc : lookupReg (removeConnection reg sid A.UserID) sid =
        some [B] := by
      simp only [removeConnection, hlook, hfirst, List.length_cons,
        List.length_nil]
      simp [RegistryLemmas.lookup_insert]
    rw [hbr, hfilter]
    simp only [List.foldl_cons, List.foldl_nil, hrc, Option.getD_some,
      List.mem_singleton]
    exact fun h => hAB (by rw [h])

/-- C3 witness: concrete instantiation of `broadcast_isolation_general` on
the session `[alice (failing), bob (healthy)]` with distinct user ids —
`bob` receives the message and the dead `alice` is pruned. -/
theorem broadcast_isolation_general_witness :
    (⟨"bob", "agent", "S"⟩ : WSConn) ∈
      (broadcastToSession (fun c => c.UserID == "bob")
        [("S", [⟨"alice", "customer", "S"⟩, ⟨"bob", "agent", "S"⟩])]
        "S").2 ∧
    (⟨"alice", "customer", "S"⟩ : WSConn) ∉
      (lookupReg ((broadcastToSession (fun c => c.UserID == "bob")
        [("S", [⟨"alice", "customer", "S"⟩, ⟨"bob", "agent", "S"⟩])]
        "S").1) "S").getD [] :=
  ⟨(broadcast_isolation_general
      [("S", [⟨"alice", "customer", "S"⟩, ⟨"bob", "agent", "S"⟩])] "S"
      (fun c => c.UserID == "bob")
      [⟨"alice", "customer", "S"⟩, ⟨"bob", "agent", "S"⟩] (by decide)
      ⟨"bob", "agent", "S"⟩ (by decide) (by decide)).1,
   (broadcast_isolation_general
      [("S", [⟨"alice", "customer", "S"⟩, ⟨"bob", "agent", "S"⟩])] "S"
      (fun c => c.UserID == "bob")
      [⟨"alice", "customer", "S"⟩, ⟨"bob", "agent", "S"⟩] (by decide)
      ⟨"bob", "agent", "S"⟩ (by decide) (by decide)).2.2.2
      ⟨"alice", "customer", "S"⟩ rfl (by decide) (by decide)⟩

namespace MsgLemmas

theorem readLoop_append (a b c : Bool) (l1 l2 : List InboundMsg)
    (sid uid utype : String) :
    readLoop a b c (l1 ++ l2) sid uid utype =
      readLoop a b c l1 sid uid utype ++ readLoop a b c l2 sid uid utype := by
  induction l1 with
  | nil => simp [readLoop]
  | cons m rest ih => simp [readLoop, ih]

theorem typing_clear_absent (ts : TypingStore) (sid uid : String) (t : Nat) :
    typingFlagAt (ts.filter (fun e => ¬(e.1 = sid ∧ e.2.1 = uid))) t sid uid
      = false := by
  rw [typingFlagAt, List.any_eq_false]
  intro x hx
  rcases List.mem_filter.mp hx with ⟨_, hpred⟩
  simp only [decide_eq_true_eq] at hpred ⊢
  intro hcon
  exact hpred ⟨hcon.1, hcon.2.1⟩

end MsgLemmas

/-- C9: an unrecognized inbound message type yields exactly one outbound
`error` frame to the sender, zero broadcasts, no connection close, and the
read loop goes on to process subsequent frames. -/
theorem unknown_type_single_error (setTypingOk uuidOk kafkaOk : Bool)
    (t : String) (d : MsgData) (sid uid utype : String)
    (h1 : t ≠ "join_session") (h2 : t ≠ "typing_start")
    (h3 : t ≠ "agent_typing") (h4 : t ≠ "typing_stop")
    (h5 : t ≠ "send_message") (h6 : t ≠ "ping") :
    handleIncomingMessage setTypingOk uuidOk kafkaOk t d sid uid utype =
      [Step.sendToConn
        { type := "error", success := false, data := RespData.noData,
          error := some ("Unknown message type: " ++ t) }] ∧
    (∀ s r, Step.localBroadcast s r ∉
      handleIncomingMessage setTypingOk uuidOk kafkaOk t d sid uid utype) ∧
    Step.connClose ∉
      handleIncomingMessage setTypingOk uuidOk kafkaOk t d sid uid utype ∧
    (∀ pre post,
      readLoop setTypingOk uuidOk kafkaOk (pre ++ ⟨t, d⟩ :: post) sid uid
        utype =
      readLoop setTypingOk uuidOk kafkaOk pre sid uid utype ++
      handleIncomingMessage setTypingOk uuidOk kafkaOk t d sid uid utype ++
      readLoop setTypingOk uuidOk kafkaOk post sid uid utype) := by
  have heq : handleIncomingMessage setTypingOk uuidOk kafkaOk t d sid uid
      utype =
      [Step.sendToConn
        { type := "error", success := false, data := RespData.noData,
          error := some ("Unknown message type: " ++ t) }] := by
    simp [handleIncomingMessage, h1, h2, h3, h4, h5, h6]
  refine ⟨heq, ?_, ?_, ?_⟩
  · intro s r
    rw [heq]; simp
  · rw [heq]; simp
  · intro pre post
    rw [MsgLemmas.readLoop_append]
    simp [readLoop, List.append_assoc]

/-- C9 witness: the unknown type `"frobnicate"` produces exactly the one
error frame. -/
theorem unknown_type_single_error_witness :
    handleIncomingMessage true true true "frobnicate" MsgData.null "S" "u"
      "customer" =
      [Step.sendToConn
        { type := "error", success := false, data := RespData.noData,
          error := some ("Unknown message type: " ++ "frobnicate") }] :=
  (unknown_type_single_error true true true "frobnicate" MsgData.null "S" "u"
    "customer" (by decide) (by decide) (by decide) (by decide) (by decide)
    (by decide)).1

/-- C5 counterexample: an inbound `typing_start` whose data object carries
`is_typing: false` is broadcast with `is_typing = false`, not `true` — the
data field overrides the message type (ws_manager.go 245-254). -/
theorem typing_start_override_cex :
    handleIncomingMessage true true true "typing_start"
      (MsgData.map [("is_typing", DataVal.bool false)]) "S" "u" "customer" =
      [Step.setTyping "S" "u" false,
       Step.localBroadcast "S"
         { type := "typing_indicator", success := false,
           data := RespData.typing "S" "u" "customer" false, error := none },
       Step.busPublishTyping "S" "u" "customer" false] ∧
    Step.localBroadcast "S"
      { type := "typing_indicator", success := false,
        data := RespData.typing "S" "u" "customer" true, error := none } ∉
      handleIncomingMessage true true true "typing_start"
        (MsgData.map [("is_typing", DataVal.bool false)]) "S" "u"
        "customer" := by
  exact ⟨rfl, by decide⟩

/-- C5 (amended): a `typing_start` whose data does not override `is_typing`
to `false` broadcasts a `typing_indicator` with `is_typing = true` for the
user (and writes the typing key); a `typing_stop` broadcasts
`is_typing = false` and deletes the typing key, so the flag is absent at
every later instant; a typing key written by `typing_start` expires once its
30-second TTL has elapsed and is present before that. -/
theorem typing_roundtrip (setTypingOk uuidOk kafkaOk : Bool) (d d2 : MsgData)
    (sid uid utype : String) (ts : TypingStore) (now t2 : Nat)
    (hd : typingOverride d = true) :
    Step.localBroadcast sid
      { type := "typing_indicator", success := false,
        data := RespData.typing sid uid utype true, error := none } ∈
      handleIncomingMessage setTypingOk uuidOk kafkaOk "typing_start" d sid
        uid utype ∧
    Step.setTyping sid uid true ∈
      handleIncomingMessage setTypingOk uuidOk kafkaOk "typing_start" d sid
        uid utype ∧
    Step.localBroadcast sid
      { type := "typing_indicator", success := false,
        data := RespData.typing sid uid utype false, error := none } ∈
      handleIncomingMessage setTypingOk uuidOk kafkaOk "typing_stop" d2 sid
        uid utype ∧
    typingFlagAt (SetUserTyping ts now sid uid false) t2 sid uid = false ∧
    (now + 30 ≤ t2 →
      typingFlagAt (SetUserTyping ts now sid uid true) t2 sid uid = false) ∧
    (t2 < now + 30 →
      typingFlagAt (SetUserTyping ts now sid uid true) t2 sid uid = true) := by
  have hstart : handleIncomingMessage setTypingOk uuidOk kafkaOk
      "typing_start" d sid uid utype =
      handleTypingIndicator setTypingOk uuidOk kafkaOk sid uid utype
        (typingOverride d) := rfl
  have hstop : handleIncomingMessage setTypingOk uuidOk kafkaOk
      "typing_stop" d2 sid uid utype =
      handleTypingIndicator setTypingOk uuidOk kafkaOk sid uid utype
        false := rfl
  refine ⟨?_, ?_, ?_, ?_, ?_, ?_⟩
  · rw [hstart, hd]; simp [handleTypingIndicator]
  · rw [hstart, hd]; simp [handleTypingIndicator]
  · rw [hstop]; simp [handleTypingIndicator]
  · exact MsgLemmas.typing_clear_absent ts sid uid t2
  · intro hexp
    have hnot : ¬ t2 < now + 30 := Nat.not_lt.mpr hexp
    rw [typingFlagAt, List.any_eq_false]
    intro x hx
    simp only [SetUserTyping, if_pos, List.mem_cons, List.mem_filter] at hx
    simp only [decide_eq_true_eq]
    intro hcon
    rcases hx with he | ⟨_, hne⟩
    · rw [he] at hcon
      exact hnot hcon.2.2
    · simp only [decide_eq_true_eq] at hne
      exact hne ⟨hcon.1, hcon.2.1⟩
  · intro hlt
    rw [typingFlagAt, List.any_eq_true]
    refine ⟨(sid, uid, now + 30), ?_, ?_⟩
    · simp [SetUserTyping]
    · simp [hlt]

/-- C5 witness: concrete instantiation of `typing_roundtrip` with no data
override, an empty typing store, a typing write at instant 0, and
observation at instant 50. -/
theorem typing_roundtrip_witness :
    Step.localBroadcast "S"
      { type := "typing_indicator", success := false,
        data := RespData.typing "S" "u" "customer" true, error := none } ∈
      handleIncomingMessage true true true "typing_start" MsgData.null "S"
        "u" "customer" ∧
    Step.setTyping "S" "u" true ∈
      handleIncomingMessage true true true "typing_start" MsgData.null "S"
        "u" "customer" ∧
    Step.localBroadcast "S"
      { type := "typing_indicator", success := false,
        data := RespData.typing "S" "u" "customer" false, error := none } ∈
      handleIncomingMessage true true true "typing_stop" MsgData.notMap "S"
        "u" "customer" ∧
    typingFlagAt (SetUserTyping [] 0 "S" "u" false) 50 "S" "u" = false ∧
    (0 + 30 ≤ 50 →
      typingFlagAt (SetUserTyping [] 0 "S" "u" true) 50 "S" "u" = false) ∧
    (50 < 0 + 30 →
      typingFlagAt (SetUserTyping [] 0 "S" "u" true) 50 "S" "u" = true) :=
  typing_roundtrip true true true MsgData.null MsgData.notMap "S" "u"
    "customer" [] 0 50 (by decide)

/-- C4 (amended): presence-store WRITE failures and bus-publish failures are
only logged: `handleTypingIndicator` emits the same steps whatever their
outcome and always performs the local broadcast; once the presence READ has
succeeded, the `connection_status_update` local broadcast happens for every
uuid-parse/Kafka outcome; and on disconnect the registry removal still
happens when the presence read fails.  A failed presence read, by contrast,
suppresses the status broadcast (see `status_read_failure_cex`). -/
theorem collaborator_errors_logged_only (setTypingOk uuidOk kafkaOk pOk : Bool)
    (writeOk : WSConn → Bool) (st : ServerState)
    (sid uid utype et eu : String) (ty : Bool) :
    handleTypingIndicator setTypingOk uuidOk kafkaOk sid uid utype ty =
      handleTypingIndicator true uuidOk true sid uid utype ty ∧
    Step.localBroadcast sid
      { type := "typing_indicator", success := false,
        data := RespData.typing sid uid utype ty, error := none } ∈
      handleTypingIndicator setTypingOk uuidOk kafkaOk sid uid utype ty ∧
    Step.localBroadcast sid
      { type := "connection_status_update", success := false,
        data := RespData.connStatus sid
          (GetSessionUsers (presenceLookup st.presence sid))
          (if et = "" then none else some et)
          (if eu = "" then none else some eu),
        error := none } ∈
      (broadcastConnectionStatusWithContext writeOk true uuidOk kafkaOk st
        sid et eu).2 ∧
    (handleConnectionDisconnect writeOk pOk false uuidOk kafkaOk st sid
        uid).1.registry = removeConnection st.registry sid uid := by
  refine ⟨rfl, by simp [handleTypingIndicator], ?_, ?_⟩
  · simp [broadcastConnectionStatusWithContext]
  · cases pOk <;>
      simp [handleConnectionDisconnect, runDefers, handleConnectionDefers,
        broadcastConnectionStatusWithContext]

/-- C4 counterexample: with a live connection registered and presence
recorded, a presence READ failure makes `broadcastConnectionStatusWithContext`
return with no steps at all — the local broadcast is suppressed — while the
same call with the read succeeding does issue the local status broadcast. -/
theorem status_read_failure_cex :
    (broadcastConnectionStatusWithContext (fun _ => true) false true true
      ⟨[("S", [⟨"bob", "agent", "S"⟩])],
       [("S", [("bob", ⟨"bob", "agent", 0⟩)])]⟩ "S" "user_disconnected"
      "alice").2 = [] ∧
    (broadcastConnectionStatusWithContext (fun _ => true) true true true
      ⟨[("S", [⟨"bob", "agent", "S"⟩])],
       [("S", [("bob", ⟨"bob", "agent", 0⟩)])]⟩ "S" "user_disconnected"
      "alice").2.any isConnStatusBroadcast = true :=
  ⟨rfl, by decide⟩

namespace LifecycleLemmas

theorem presenceLookup_update (ps : PresenceStore) (sid : String)
    (h : PresenceHash) :
    presenceLookup (presenceUpdate ps sid h) sid = h := by
  induction ps with
  | nil => simp [presenceUpdate, presenceLookup]
  | cons p rest ih =>
    obtain ⟨k, v⟩ := p
    by_cases hk : k = sid <;> simp [presenceUpdate, presenceLookup, hk, ih]

theorem disconnect_trace (writeOk : WSConn → Bool) (uuidOk kafkaOk : Bool)
    (st : ServerState) (sid uid : String) :
    (handleConnectionDisconnect writeOk true true uuidOk kafkaOk st sid
        uid).2 =
      [Step.presenceLeave sid uid, Step.registryRemove sid uid,
       Step.localBroadcast sid
         { type := "connection_status_update", success := false,
           data := RespData.connStatus sid
             (GetSessionUsers (hdel (presenceLookup st.presence sid) uid))
             (some "user_disconnected") (if uid = "" then none else some uid),
           error := none }] ++
      (if uuidOk then
         [Step.busPublishStatus sid
           (GetSessionUsers (hdel (presenceLookup st.presence sid) uid))]
       else []) ++ [Step.connClose] := by
  simp [handleConnectionDisconnect, runDefers, handleConnectionDefers,
    broadcastConnectionStatusWithContext, RemoveUserFromSession,
    presenceLookup_update,
    (by decide : ¬(("user_disconnected" : String) = ""))]

theorem hdel_filter_length (h : PresenceHash) (uid r : String) :
    ((hdel h uid).filter (fun p => p.2.user_type = r)).length =
      (h.filter (fun p => ¬(p.1 = uid) ∧ p.2.user_type = r)).length := by
  induction h with
  | nil => rfl
  | cons p t ih =>
    by_cases hk : p.1 = uid
    · have h1 : hdel (p :: t) uid = hdel t uid := by
        simp [hdel, List.filter_cons, hk]
      rw [h1, List.filter_cons, if_neg (by simp [hk]), ih]
    · have h1 : hdel (p :: t) uid = p :: hdel t uid := by
        simp [hdel, List.filter_cons, hk]
      rw [h1, List.filter_cons, List.filter_cons]
      by_cases hr : p.2.user_type = r
      · rw [if_pos (by simp [hr]), if_pos (by simp [hk, hr]),
          List.length_cons, List.length_cons, ih]
      · rw [if_neg (by simp [hr]), if_neg (by simp [hk, hr]), ih]

end LifecycleLemmas

/-- C2 counterexample: on disconnect the FIRST closing step is the
presence-store removal, not the registry removal — the deferred functions of
`HandleConnection` run in LIFO order, so the two removals happen in the
opposite order to the claim (the broadcast is still last). -/
theorem closing_order_cex :
    ((handleConnectionDisconnect (fun _ => true) true true true true
      ⟨[("S", [⟨"bob", "agent", "S"⟩])],
       [("S", [("alice", ⟨"alice", "customer", 0⟩),
               ("bob", ⟨"bob", "agent", 1⟩)])]⟩ "S" "alice").2.head? =
      some (Step.presenceLeave "S" "alice")) ∧
    ((handleConnectionDisconnect (fun _ => true) true true true true
      ⟨[("S", [⟨"bob", "agent", "S"⟩])],
       [("S", [("alice", ⟨"alice", "customer", 0⟩),
               ("bob", ⟨"bob", "agent", 1⟩)])]⟩ "S" "alice").2.head? ≠
      some (Step.registryRemove "S" "alice")) := by
  exact ⟨by decide, by decide⟩

/-- C2 (amended): the closing steps run exactly once each, in this order:
(1) presence-store removal (`RemoveUserFromSession`), (2) registry removal
(`removeConnection`), (3) the status broadcast with `user_disconnected` and
the departing user's id — followed by the bus publish when the session id
parses, and the socket close; when the presence read fails the broadcast is
skipped and the two removals still run once, in that order. -/
theorem closing_steps_once_ordered (writeOk : WSConn → Bool)
    (uuidOk kafkaOk : Bool) (st : ServerState) (sid uid : String)
    (huid : uid ≠ "") :
    (handleConnectionDisconnect writeOk true true uuidOk kafkaOk st sid
        uid).2 =
      [Step.presenceLeave sid uid, Step.registryRemove sid uid,
       Step.localBroadcast sid
         { type := "connection_status_update", success := false,
           data := RespData.connStatus sid
             (GetSessionUsers (hdel (presenceLookup st.presence sid) uid))
             (some "user_disconnected") (some uid),
           error := none }] ++
      (if uuidOk then
         [Step.busPublishStatus sid
           (GetSessionUsers (hdel (presenceLookup st.presence sid) uid))]
       else []) ++ [Step.connClose] ∧
    (handleConnectionDisconnect writeOk true false uuidOk kafkaOk st sid
        uid).2 =
      [Step.presenceLeave sid uid, Step.registryRemove sid uid,
       Step.connClose] := by
  constructor
  · rw [LifecycleLemmas.disconnect_trace writeOk uuidOk kafkaOk st sid uid,
      if_neg huid]
  · simp [handleConnectionDisconnect, runDefers, handleConnectionDefers,
      broadcastConnectionStatusWithContext]

/-- C2 witness: concrete instantiation of `closing_steps_once_ordered` on the
empty state, disconnecting `"alice"` with the session id failing to parse. -/
theorem closing_steps_once_ordered_witness :
    (handleConnectionDisconnect (fun _ => true) true true false true
      ⟨[], []⟩ "S" "alice").2 =
      [Step.presenceLeave "S" "alice", Step.registryRemove "S" "alice",
       Step.localBroadcast "S"
         { type := "connection_status_update", success := false,
           data := RespData.connStatus "S"
             (GetSessionUsers (hdel
               (presenceLookup ([] : PresenceStore) "S") "alice"))
             (some "user_disconnected") (some "alice"),
           error := none }] ++ [] ++ [Step.connClose] ∧
    (handleConnectionDisconnect (fun _ => true) true false false true
      ⟨[], []⟩ "S" "alice").2 =
      [Step.presenceLeave "S" "alice", Step.registryRemove "S" "alice",
       Step.connClose] :=
  closing_steps_once_ordered (fun _ => true) false true ⟨[], []⟩ "S" "alice"
    (by decide)

/-- C1: the `connection_status_update` broadcast issued on disconnect is the
single status broadcast of the closing path and is computed from the
presence store AFTER the departing user's entry was removed: its payload
status is `GetSessionUsers` of the post-removal hash, the departing user is
absent from its users map, and its totals count only the remaining entries —
never a stale snapshot that still includes the departing user. -/
theorem disconnect_broadcast_excludes_user (writeOk : WSConn → Bool)
    (uuidOk kafkaOk : Bool) (st : ServerState) (sid uid : String) :
    ((handleConnectionDisconnect writeOk true true uuidOk kafkaOk st sid
        uid).2.filter isConnStatusBroadcast =
      [Step.localBroadcast sid
        { type := "connection_status_update", success := false,
          data := RespData.connStatus sid
            (GetSessionUsers (hdel (presenceLookup st.presence sid) uid))
            (some "user_disconnected") (if uid = "" then none else some uid),
          error := none }]) ∧
    (∀ p ∈ (GetSessionUsers
        (hdel (presenceLookup st.presence sid) uid)).users, p.1 ≠ uid) ∧
    (GetSessionUsers
        (hdel (presenceLookup st.presence sid) uid)).total_customer =
      ((presenceLookup st.presence sid).filter
        (fun p => ¬(p.1 = uid) ∧ p.2.user_type = "customer")).length ∧
    (GetSessionUsers (hdel (presenceLookup st.presence sid) uid)).total_agent
      = ((presenceLookup st.presence sid).filter
        (fun p => ¬(p.1 = uid) ∧ p.2.user_type = "agent")).length := by
  refine ⟨?_, ?_, ?_, ?_⟩
  · rw [LifecycleLemmas.disconnect_trace writeOk uuidOk kafkaOk st sid uid]
    cases uuidOk <;>
      simp [isConnStatusBroadcast, List.filter_cons, List.filter_append]
  · intro p hp
    rw [PresenceLemmas.users_eq] at hp
    rcases List.mem_filter.mp hp with ⟨_, hpred⟩
    simpa using hpred
  · rw [PresenceLemmas.total_customer_eq]
    exact LifecycleLemmas.hdel_filter_length (presenceLookup st.presence sid)
      uid "customer"
  · rw [PresenceLemmas.total_agent_eq]
    exact LifecycleLemmas.hdel_filter_length (presenceLookup st.presence sid)
      uid "agent"
